import Mathlib

/-!
Shallow embedding of `pdf_extractor.py` (class `PDFOutlineExtractor`).

Python strings are modelled as lists of characters (`PyStr`), font sizes and
page coordinates as exact rationals, and the PDF layout provider (PyMuPDF) as
explicit data: a document is a list of pages, each page carries its width and
either a list of layout blocks or the error message of the exception that
`page.get_text` would raise.  Opening a file is modelled by an
`Except PyStr PdfDoc` value handed to `extract_outline`; the `closed` flag of
`OutlineCall` records whether `doc.close()` was reached, and `log` records the
message printed by the `except` handler.
-/

set_option maxRecDepth 8000

abbrev PyStr := List Char

/-- Python `str.strip()`: drop whitespace from both ends. -/
def pyStrip (s : PyStr) : PyStr :=
  List.rdropWhile Char.isWhitespace (List.dropWhile Char.isWhitespace s)

/-- Python `str.lower()`. -/
def pyLower (s : PyStr) : PyStr := s.map Char.toLower

/-- Python `str.isdigit()`: nonempty and all digits. -/
def pyIsDigit (s : PyStr) : Bool := !s.isEmpty && s.all Char.isDigit

/-- A cased character (has upper/lower forms). -/
def casedChar (c : Char) : Bool := c.isUpper || c.isLower

/-- Python `str.isupper()`: at least one cased character and no lowercase cased character. -/
def pyIsUpper (s : PyStr) : Bool :=
  s.any casedChar && s.all (fun c => !casedChar c || c.isUpper)

/-- Python `pat in s` substring containment. -/
def pyIn (pat s : PyStr) : Bool := (List.tails s).any (fun t => pat.isPrefixOf t)

/-- Constructor parameters of `PDFOutlineExtractor.__init__`. -/
structure Config where
  min_font_size : ℚ
  min_text_length : Nat
deriving DecidableEq

/-- The default extractor: `PDFOutlineExtractor(min_font_size=10.0, min_text_length=3)`. -/
def defaultConfig : Config := ⟨10, 3⟩

/-- A raw text span: `{text, size, flags, bbox}` (only the horizontal bbox
coordinates `bbox[0]` and `bbox[2]` matter to the extractor). -/
structure Span where
  text : PyStr
  size : ℚ
  flags : Nat
  x0 : ℚ
  x1 : ℚ
deriving DecidableEq

/-- A line of spans as delivered by `page.get_text("dict")`. -/
structure TextLine where
  spans : List Span
deriving DecidableEq

/-- A layout block; `lines = none` models a block without a `'lines'` key. -/
structure TextBlock where
  lines : Option (List TextLine)
deriving DecidableEq

instance exceptDecEq {ε α : Type} [DecidableEq ε] [DecidableEq α] : DecidableEq (Except ε α) :=
  fun x y =>
    match x, y with
    | Except.error a, Except.error b =>
      if h : a = b then isTrue (by rw [h]) else isFalse (by intro hh; cases hh; exact h rfl)
    | Except.error _, Except.ok _ => isFalse (by intro hh; cases hh)
    | Except.ok _, Except.error _ => isFalse (by intro hh; cases hh)
    | Except.ok a, Except.ok b =>
      if h : a = b then isTrue (by rw [h]) else isFalse (by intro hh; cases hh; exact h rfl)

/-- A page: its width and the result of `page.get_text("dict")`, which may raise. -/
structure PdfPage where
  width : ℚ
  blocks : Except PyStr (List TextBlock)
deriving DecidableEq

/-- A document: the pages of an opened PDF. -/
structure PdfDoc where
  pages : List PdfPage
deriving DecidableEq

/-- The exported form of a block candidate: `(text, font_size, is_bold, page)`. -/
structure FontInfo where
  text : PyStr
  size : ℚ
  bold : Bool
  page : Nat
deriving DecidableEq

/-- A heading record `{level, text, page}`. -/
structure Heading where
  level : PyStr
  text : PyStr
  page : Nat
deriving DecidableEq

/-- The result dictionary `{title, outline}`. -/
structure OutlineResult where
  title : PyStr
  outline : List Heading
deriving DecidableEq

/-- One call of `extract_outline`: its return value, whether `doc.close()` was
reached before returning, and the error line printed by the handler (if any). -/
structure OutlineCall where
  result : OutlineResult
  closed : Bool
  log : Option PyStr
deriving DecidableEq

/-- A span that counts towards the title: its horizontal center lies within a
quarter page-width of the page center (`abs(center - page_center) < page_width * 0.25`)
and its font size meets the minimum (`font_size >= self.min_font_size`). -/
def titleSpanQual (cfg : Config) (pw : ℚ) (sp : Span) : Prop :=
  |(sp.x0 + sp.x1) / 2 - pw / 2| < pw * (1 / 4) ∧ cfg.min_font_size ≤ sp.size

instance (cfg : Config) (pw : ℚ) (sp : Span) : Decidable (titleSpanQual cfg pw sp) := by
  unfold titleSpanQual; infer_instance

/-- The span loop of `extract_title`: accumulates `(line_centered, max_font_size, line_text)`. -/
def titleSpanStep (cfg : Config) (pw : ℚ) (st : Bool × ℚ × PyStr) (sp : Span) : Bool × ℚ × PyStr :=
  if titleSpanQual cfg pw sp then
    (true, max st.2.1 sp.size, st.2.2 ++ pyStrip sp.text ++ [' '])
  else st

/-- Scan of one line by `extract_title`, starting from `(False, 0, "")`. -/
def titleLineScan (cfg : Config) (pw : ℚ) (ln : TextLine) : Bool × ℚ × PyStr :=
  ln.spans.foldl (titleSpanStep cfg pw) (false, 0, [])

/-- The candidate `(max_font_size, line_text.strip())` a line contributes to
`title_lines`, if any. -/
def titleLineCand (cfg : Config) (pw : ℚ) (ln : TextLine) : Option (ℚ × PyStr) :=
  let st := titleLineScan cfg pw ln
  if st.1 = true ∧ cfg.min_text_length ≤ (pyStrip st.2.2).length then
    some (st.2.1, pyStrip st.2.2)
  else none

/-- Appending one line's candidate (if any) to `title_lines`. -/
def candAppend (cfg : Config) (pw : ℚ) (acc : List (ℚ × PyStr)) (ln : TextLine) :
    List (ℚ × PyStr) :=
  match titleLineCand cfg pw ln with
  | some c => acc ++ [c]
  | none => acc

/-- The block loop of `extract_title`: skip blocks without `'lines'`, fold the
line loop over the others. -/
def titleBlockFold (cfg : Config) (pw : ℚ) (acc : List (ℚ × PyStr)) (b : TextBlock) :
    List (ℚ × PyStr) :=
  match b.lines with
  | none => acc
  | some lns => lns.foldl (candAppend cfg pw) acc

/-- `PDFOutlineExtractor.extract_title`. -/
def extract_title (cfg : Config) (doc : PdfDoc) : PyStr :=
  match doc.pages with
  | [] => []
  | fp :: _ =>
    match fp.blocks with
    | Except.error _ => []
    | Except.ok blocks =>
      let title_lines := blocks.foldl (titleBlockFold cfg fp.width) []
      match title_lines with
      | [] => []
      | _ :: _ =>
        let sorted := List.insertionSort (fun a b : ℚ × PyStr => b.1 ≤ a.1) title_lines
        pyStrip (List.intercalate [' '] ((sorted.take 2).map Prod.snd))

/-- The eight noise substrings of `_is_likely_body_text`. -/
def noisePatterns : List PyStr :=
  ["www.".toList, "http".toList, ".com".toList, "appendix".toList,
   "copyright".toList, "©".toList, "table".toList, "figure".toList]

/-- `PDFOutlineExtractor._is_likely_body_text`, clause for clause. -/
def isLikelyBodyText (t : PyStr) : Bool :=
  if 400 < t.length ∧ pyIsUpper t = false then true
  else if pyIsDigit t = true ∨ (t.length ≤ 3 ∧ pyIsDigit t = true) then true
  else if noisePatterns.any (fun p => pyIn p (pyLower t)) then true
  else if (pyStrip t).length ≤ 1 then true
  else if t.contains '@' = true ∨ pyIn "http".toList (pyLower t) = true then true
  else if pyIsUpper t = true ∧ t.length < 15 then true
  else if (t.contains '-' = true ∨ t.contains ':' = true) ∧
          (3 < t.count '-' ∨ 2 < t.count ':') then true
  else false

/-- The span loop of `extract_font_info`: accumulates `(line_text, font_size, is_bold)`. -/
def fontSpanStep (st : PyStr × ℚ × Bool) (sp : Span) : PyStr × ℚ × Bool :=
  let text := pyStrip sp.text
  if text.isEmpty then st
  else (st.1 ++ text ++ [' '], max st.2.1 sp.size, st.2.2 || (sp.flags.land 16 != 0))

/-- The per-line aggregation of `extract_font_info`: a `(text, size, bold)`
entry of `block_lines`, if the line qualifies. -/
def lineAgg (cfg : Config) (ln : TextLine) : Option (PyStr × ℚ × Bool) :=
  let st := ln.spans.foldl fontSpanStep ([], 0, false)
  let line_text := pyStrip st.1
  if line_text.isEmpty = false ∧ cfg.min_font_size ≤ st.2.1 then
    some (line_text, st.2.1, st.2.2)
  else none

/-- The per-block aggregation of `extract_font_info`: the appended
`(combined_text, max_font_size, bold, page_num)` tuple, if the block survives
the filters. `pageNum` is the 1-indexed page number. -/
def blockCandidate (cfg : Config) (pageNum : Nat) (b : TextBlock) : Option FontInfo :=
  match b.lines with
  | none => none
  | some lns =>
    let block_lines := lns.foldl (fun acc ln =>
      match lineAgg cfg ln with
      | some r => acc ++ [r]
      | none => acc) []
    match block_lines with
    | [] => none
    | bl0 :: rest =>
      let combined := pyStrip (List.intercalate [' '] ((bl0 :: rest).map (fun r => r.1)))
      let maxfs := (rest.map (fun r => r.2.1)).foldl max bl0.2.1
      let bold := (bl0 :: rest).any (fun r => r.2.2)
      if cfg.min_text_length ≤ combined.length ∧ isLikelyBodyText combined = false ∧
         (12 < maxfs ∨ bold = true) then
        some ⟨combined, maxfs, bold, pageNum⟩
      else none

/-- `PDFOutlineExtractor.extract_font_info`; a raising `page.get_text` aborts
the whole call with that exception. -/
def extract_font_info (cfg : Config) (doc : PdfDoc) : Except PyStr (List FontInfo) :=
  (doc.pages.enum).foldlM (fun acc pr => do
    let blocks ← pr.2.blocks
    pure (acc ++ blocks.foldl (fun a b =>
      match blockCandidate cfg (pr.1 + 1) b with
      | some fi => a ++ [fi]
      | none => a) [])) []

/-- The `heading_levels` array `['H1', 'H2', 'H3']`. -/
def hlevels : List PyStr := ["H1".toList, "H2".toList, "H3".toList]

/-- The order of `font_info.sort(key=lambda x: (x[3], x[1]), reverse=True)`:
descending lexicographic on (page, size). -/
def sortKeyDesc (a b : FontInfo) : Prop :=
  b.page < a.page ∨ (b.page = a.page ∧ b.size ≤ a.size)

/-- The order of `font_info.sort(key=lambda x: (x[3], -x[1]))`: page ascending,
then size descending. -/
def sortKeyAsc (a b : FontInfo) : Prop :=
  a.page < b.page ∨ (a.page = b.page ∧ b.size ≤ a.size)

instance : DecidableRel sortKeyDesc := fun a b => by unfold sortKeyDesc; infer_instance

instance : DecidableRel sortKeyAsc := fun a b => by unfold sortKeyAsc; infer_instance

/-- Descending order on rationals, used to sort the distinct font sizes. -/
def geQ (a b : ℚ) : Prop := b ≤ a

instance : DecidableRel geQ := fun a b => by unfold geQ; infer_instance

/-- The `size_to_level` dictionary built by
`for i, size in enumerate(font_sizes[:3]): size_to_level[size] = heading_levels[i]`,
read as a lookup. -/
def assignLevels : List ℚ → List PyStr → ℚ → Option PyStr
  | [], _, _ => none
  | _ :: _, [], _ => none
  | s :: ss, l :: ls, q => if q = s then some l else assignLevels ss ls q

/-- The distinct font sizes of the input, sorted descending
(`font_sizes = list({...}); font_sizes.sort(reverse=True)`). -/
def rankedSizes (fi : List FontInfo) : List ℚ :=
  List.insertionSort geQ ((fi.map FontInfo.size).dedup)

/-- The emit loop of `determine_heading_levels`: walk the sorted tuples, keep
those whose size is mapped, skip case-insensitive duplicates. -/
def emitHeadings (s2l : ℚ → Option PyStr) : List FontInfo → List PyStr → List Heading
  | [], _ => []
  | t :: rest, seen =>
    match s2l t.size with
    | none => emitHeadings s2l rest seen
    | some lvl =>
      if seen.contains (pyLower (pyStrip t.text)) then emitHeadings s2l rest seen
      else ⟨lvl, pyStrip t.text, t.page⟩ :: emitHeadings s2l rest (pyLower (pyStrip t.text) :: seen)

/-- The same loop, returning the surviving input tuples instead of the built
heading dictionaries. -/
def selectTuples (s2l : ℚ → Option PyStr) : List FontInfo → List PyStr → List FontInfo
  | [], _ => []
  | t :: rest, seen =>
    match s2l t.size with
    | none => selectTuples s2l rest seen
    | some _ =>
      if seen.contains (pyLower (pyStrip t.text)) then selectTuples s2l rest seen
      else t :: selectTuples s2l rest (pyLower (pyStrip t.text) :: seen)

/-- The heading dictionary built from a surviving tuple. -/
def toHeading (s2l : ℚ → Option PyStr) (t : FontInfo) : Heading :=
  ⟨(s2l t.size).getD [], pyStrip t.text, t.page⟩

/-- `PDFOutlineExtractor.determine_heading_levels` together with the final
state of the caller's (in-place sorted) `font_info` list. -/
def determine_heading_levels_st (fi : List FontInfo) : List Heading × List FontInfo :=
  match fi with
  | [] => ([], [])
  | _ :: _ =>
    let fi1 := List.insertionSort sortKeyDesc fi
    let sizes := List.insertionSort geQ ((fi1.map FontInfo.size).dedup)
    let s2l := assignLevels (sizes.take 3) hlevels
    let fi2 := List.insertionSort sortKeyAsc fi1
    (emitHeadings s2l fi2 [], fi2)

/-- The return value of `PDFOutlineExtractor.determine_heading_levels`. -/
def determine_heading_levels (fi : List FontInfo) : List Heading :=
  (determine_heading_levels_st fi).1

/-- Both in-place sorts applied in sequence. -/
def sortedPhase (fi : List FontInfo) : List FontInfo :=
  List.insertionSort sortKeyAsc (List.insertionSort sortKeyDesc fi)

/-- The document-global size-to-level mapping of an input sequence. -/
def s2lOf (fi : List FontInfo) : ℚ → Option PyStr :=
  assignLevels ((rankedSizes fi).take 3) hlevels

/-- The tuples that survive level assignment and deduplication, in emit order. -/
def selectedOf (fi : List FontInfo) : List FontInfo :=
  selectTuples (s2lOf fi) (sortedPhase fi) []

/-- The message printed by `except` in `extract_outline`:
`f"Error processing {pdf_path}: {e}"`. -/
def errMsg (path e : PyStr) : PyStr :=
  "Error processing ".toList ++ path ++ ": ".toList ++ e

/-- The body-text filter as worded by the specification: a disjunction of the
seven listed conditions. -/
def bodyTextSpec (t : PyStr) : Bool :=
  (decide (400 < t.length) && !pyIsUpper t) ||
  pyIsDigit t ||
  noisePatterns.any (fun p => pyIn p (pyLower t)) ||
  decide ((pyStrip t).length ≤ 1) ||
  (t.contains '@' || pyIn "http".toList (pyLower t)) ||
  (pyIsUpper t && decide (t.length < 15)) ||
  (decide (3 < t.count '-') || decide (2 < t.count ':'))

/-- Title-line collection as worded by the specification: for every line of
page 1, the qualifying spans are those whose center is within a quarter page
width of the page center at or above the minimum font size; a line with at
least one qualifying span contributes `(maximum qualifying font size,
concatenated qualifying-span text)` when the trimmed text is long enough. -/
def titleLineSpecCand (cfg : Config) (pw : ℚ) (ln : TextLine) : Option (ℚ × PyStr) :=
  match ln.spans.filter (fun sp => decide (titleSpanQual cfg pw sp)) with
  | [] => none
  | q :: rest =>
    let txt := pyStrip (((q :: rest).map (fun sp => pyStrip sp.text ++ [' '])).flatten)
    if cfg.min_text_length ≤ txt.length then
      some ((rest.map Span.size).foldl max q.size, txt)
    else none

/-- The collected title candidates of page 1, one entry per qualifying line. -/
def titleLinesSpec (cfg : Config) (pw : ℚ) (lns : List TextLine) : List (ℚ × PyStr) :=
  lns.filterMap (titleLineSpecCand cfg pw)

/-- Title detection as worded by the specification: collect the qualifying
lines of page 1, sort by font size descending, join the texts of the top two
with a single space, trim; empty when no page exists, no line qualifies, or
reading the page fails. -/
def extract_title_spec (cfg : Config) (doc : PdfDoc) : PyStr :=
  match doc.pages with
  | [] => []
  | fp :: _ =>
    match fp.blocks with
    | Except.error _ => []
    | Except.ok blocks =>
      match titleLinesSpec cfg fp.width ((blocks.map (fun b => b.lines.getD [])).flatten) with
      | [] => []
      | c :: cs =>
        pyStrip (List.intercalate [' ']
          (((List.insertionSort (fun a b : ℚ × PyStr => b.1 ≤ a.1) (c :: cs)).take 2).map Prod.snd))

/-- The candidate list of the end-to-end leveling scenario: a page-1 heading at
size 18 and two page-2 headings at size 14. -/
def sampleFI3 : List FontInfo :=
  [⟨"Chapter 1".toList, 18, false, 1⟩, ⟨"Section 1.1".toList, 14, false, 2⟩,
   ⟨"Section 1.2".toList, 14, false, 2⟩]

/-- Candidates whose lowercased trimmed texts collide across pages and levels. -/
def sampleDup : List FontInfo :=
  [⟨"Overview".toList, 18, false, 1⟩, ⟨"OVERVIEW".toList, 14, true, 2⟩]

/-- Two candidates that tie on (page, font size). -/
def sampleTie : List FontInfo :=
  [⟨"Alpha".toList, 14, true, 1⟩, ⟨"Beta".toList, 14, false, 1⟩]

/-- A one-page document whose only line is centered at font size 24. -/
def docAnnual : PdfDoc :=
  ⟨[⟨100, Except.ok [⟨some [⟨[⟨"Annual Report 2024".toList, 24, 0, 30, 70⟩]⟩]⟩]⟩]⟩

/-- A one-page document with a single bold-free size-14 heading line. -/
def docGood : PdfDoc :=
  ⟨[⟨100, Except.ok [⟨some [⟨[⟨"Heading One".toList, 14, 0, 30, 70⟩]⟩]⟩]⟩]⟩

/-- A one-page document whose `page.get_text` raises. -/
def docBad : PdfDoc := ⟨[⟨100, Except.error "boom".toList⟩]⟩

/-- `PDFOutlineExtractor.extract_outline`, on the result of `fitz.open`. -/
def extract_outline (cfg : Config) (path : PyStr) (opened : Except PyStr PdfDoc) : OutlineCall :=
  match opened with
  | Except.error e => ⟨⟨[], []⟩, false, some (errMsg path e)⟩
  | Except.ok doc =>
    let title := extract_title cfg doc
    match extract_font_info cfg doc with
    | Except.error e => ⟨⟨[], []⟩, false, some (errMsg path e)⟩
    | Except.ok fi =>
      let headings := determine_heading_levels fi
      let filtered := headings.filter
        (fun h => decide (pyLower (pyStrip h.text) ≠ pyLower (pyStrip title)))
      ⟨⟨pyStrip title, filtered⟩, true, none⟩

/-! ### General lemmas about the embedded operations -/

theorem pyStrip_idem (s : PyStr) : pyStrip (pyStrip s) = pyStrip s := by
  unfold pyStrip
  have h1 : List.dropWhile Char.isWhitespace
      (List.rdropWhile Char.isWhitespace (List.dropWhile Char.isWhitespace s)) =
      List.rdropWhile Char.isWhitespace (List.dropWhile Char.isWhitespace s) := by
    rw [List.dropWhile_eq_self_iff]
    intro hl
    have hpre := List.rdropWhile_prefix Char.isWhitespace
      (List.dropWhile Char.isWhitespace s)
    have hlen : 0 < (List.dropWhile Char.isWhitespace s).length :=
      lt_of_lt_of_le hl hpre.length_le
    have hg := hpre.getElem hl
    have hnot := List.dropWhile_get_zero_not Char.isWhitespace s hlen
    simp only [List.get_eq_getElem] at hnot ⊢
    rw [hg]
    exact hnot
  rw [h1, List.rdropWhile_idempotent]

instance : IsTrans ℚ geQ := ⟨fun _ _ _ h1 h2 => le_trans h2 h1⟩

instance : IsTotal ℚ geQ := ⟨fun a b => (le_total b a).imp id id⟩

instance : IsAntisymm ℚ geQ := ⟨fun _ _ h1 h2 => le_antisymm h2 h1⟩

instance : IsTrans FontInfo sortKeyAsc := by
  constructor
  intro a b c hab hbc
  unfold sortKeyAsc at hab hbc ⊢
  rcases hab with h | ⟨h, hs⟩ <;> rcases hbc with g | ⟨g, gs⟩
  · exact Or.inl (lt_trans h g)
  · exact Or.inl (g ▸ h)
  · exact Or.inl (h ▸ g)
  · exact Or.inr ⟨h.trans g, le_trans gs hs⟩

instance : IsTotal FontInfo sortKeyAsc := by
  constructor
  intro a b
  unfold sortKeyAsc
  rcases Nat.lt_trichotomy a.page b.page with h | h | h
  · exact Or.inl (Or.inl h)
  · rcases le_total b.size a.size with hs | hs
    · exact Or.inl (Or.inr ⟨h, hs⟩)
    · exact Or.inr (Or.inr ⟨h.symm, hs⟩)
  · exact Or.inr (Or.inl h)

instance : IsTrans FontInfo sortKeyDesc := by
  constructor
  intro a b c hab hbc
  unfold sortKeyDesc at hab hbc ⊢
  rcases hab with h | ⟨h, hs⟩ <;> rcases hbc with g | ⟨g, gs⟩
  · exact Or.inl (lt_trans g h)
  · exact Or.inl (g ▸ h)
  · exact Or.inl (h ▸ g)
  · exact Or.inr ⟨g.trans h, le_trans gs hs⟩

instance : IsTotal FontInfo sortKeyDesc := by
  constructor
  intro a b
  unfold sortKeyDesc
  rcases Nat.lt_trichotomy b.page a.page with h | h | h
  · exact Or.inl (Or.inl h)
  · rcases le_total b.size a.size with hs | hs
    · exact Or.inl (Or.inr ⟨h, hs⟩)
    · exact Or.inr (Or.inr ⟨h.symm, hs⟩)
  · exact Or.inr (Or.inl h)

theorem isLikelyBodyText_eq_spec (t : PyStr) : isLikelyBodyText t = bodyTextSpec t := by
  have hd1 : 3 < t.count '-' → t.contains '-' = true := fun h =>
    List.elem_iff.mpr (List.count_pos_iff.mp (by omega))
  have hd2 : 2 < t.count ':' → t.contains ':' = true := fun h =>
    List.elem_iff.mpr (List.count_pos_iff.mp (by omega))
  unfold isLikelyBodyText bodyTextSpec
  split_ifs with h1 h2 h3 h4 h5 h6 h7 <;> simp_all
  · tauto
  · constructor
    · by_contra hc
      push_neg at hc
      have := (h7 (Or.inl (hd1 hc))).1
      omega
    · by_contra hc
      push_neg at hc
      have := (h7 (Or.inr (hd2 hc))).2
      omega

theorem emitHeadings_eq_map (s2l : ℚ → Option PyStr) :
    ∀ (l : List FontInfo) (seen : List PyStr),
      emitHeadings s2l l seen = (selectTuples s2l l seen).map (toHeading s2l) := by
  intro l
  induction l with
  | nil => intro seen; rfl
  | cons t rest ih =>
    intro seen
    unfold emitHeadings selectTuples
    cases hs : s2l t.size with
    | none => exact ih seen
    | some lvl =>
      by_cases hm : seen.contains (pyLower (pyStrip t.text)) = true
      · simp only [hm, if_pos rfl]
        exact ih seen
      · dsimp only
        rw [if_neg hm, if_neg hm]
        simp only [List.map]
        rw [ih]
        unfold toHeading
        rw [hs]
        rfl

theorem selectTuples_sublist (s2l : ℚ → Option PyStr) :
    ∀ (l : List FontInfo) (seen : List PyStr), List.Sublist (selectTuples s2l l seen) l := by
  intro l
  induction l with
  | nil => intro seen; exact List.Sublist.refl _
  | cons t rest ih =>
    intro seen
    unfold selectTuples
    cases hs : s2l t.size with
    | none => exact (ih seen).trans (List.sublist_cons_self t rest)
    | some lvl =>
      by_cases hm : seen.contains (pyLower (pyStrip t.text)) = true
      · simp only [hm, if_pos rfl]
        exact (ih seen).trans (List.sublist_cons_self t rest)
      · rw [if_neg hm]
        exact List.Sublist.cons₂ t (ih _)

theorem selectTuples_mapped (s2l : ℚ → Option PyStr) :
    ∀ (l : List FontInfo) (seen : List PyStr) (t : FontInfo),
      t ∈ selectTuples s2l l seen → (s2l t.size).isSome = true := by
  intro l
  induction l with
  | nil => intro seen t h; simp [selectTuples] at h
  | cons u rest ih =>
    intro seen t h
    unfold selectTuples at h
    cases hs : s2l u.size with
    | none =>
      rw [hs] at h
      exact ih seen t h
    | some lvl =>
      rw [hs] at h
      by_cases hm : seen.contains (pyLower (pyStrip u.text)) = true
      · rw [if_pos hm] at h
        exact ih seen t h
      · rw [if_neg hm] at h
        rcases List.mem_cons.mp h with rfl | h2
        · simp [hs]
        · exact ih _ t h2

theorem selectTuples_unseen (s2l : ℚ → Option PyStr) :
    ∀ (l : List FontInfo) (seen : List PyStr) (t : FontInfo),
      t ∈ selectTuples s2l l seen → seen.contains (pyLower (pyStrip t.text)) = false := by
  intro l
  induction l with
  | nil => intro seen t h; simp [selectTuples] at h
  | cons u rest ih =>
    intro seen t h
    unfold selectTuples at h
    cases hs : s2l u.size with
    | none =>
      rw [hs] at h
      exact ih seen t h
    | some lvl =>
      rw [hs] at h
      by_cases hm : seen.contains (pyLower (pyStrip u.text)) = true
      · rw [if_pos hm] at h
        exact ih seen t h
      · rw [if_neg hm] at h
        rcases List.mem_cons.mp h with rfl | h2
        · exact Bool.eq_false_iff.mpr hm
        · have := ih _ t h2
          simp only [List.contains_cons, Bool.or_eq_false_iff] at this
          exact this.2

theorem selectTuples_key_pairwise (s2l : ℚ → Option PyStr) :
    ∀ (l : List FontInfo) (seen : List PyStr),
      List.Pairwise (fun a b => pyLower (pyStrip a.text) ≠ pyLower (pyStrip b.text))
        (selectTuples s2l l seen) := by
  intro l
  induction l with
  | nil => intro seen; simp [selectTuples]
  | cons u rest ih =>
    intro seen
    unfold selectTuples
    cases hs : s2l u.size with
    | none => exact ih seen
    | some lvl =>
      by_cases hm : seen.contains (pyLower (pyStrip u.text)) = true
      · rw [if_pos hm]
        exact ih seen
      · rw [if_neg hm]
        refine List.Pairwise.cons ?_ (ih _)
        intro b hb hkey
        have := selectTuples_unseen s2l rest _ b hb
        simp only [List.contains_cons, Bool.or_eq_false_iff] at this
        have hne := this.1
        rw [hkey] at hne
        simp at hne

theorem assignLevels_nil_right : ∀ (ss : List ℚ) (q : ℚ), assignLevels ss [] q = none := by
  intro ss q
  cases ss <;> rfl

theorem assignLevels_not_mem :
    ∀ (ss : List ℚ) (ls : List PyStr) (q : ℚ), q ∉ ss → assignLevels ss ls q = none := by
  intro ss
  induction ss with
  | nil => intro ls q _; cases ls <;> rfl
  | cons s tail ih =>
    intro ls q hq
    cases ls with
    | nil => rfl
    | cons l ltail =>
      unfold assignLevels
      rw [if_neg (fun h => hq (by rw [h]; exact List.mem_cons_self s tail))]
      exact ih ltail q (fun h => hq (List.mem_cons_of_mem s h))

theorem assignLevels_eq_some :
    ∀ (ss : List ℚ) (ls : List PyStr) (q : ℚ) (l : PyStr),
      assignLevels ss ls q = some l →
      ∃ i : Nat, ss.get? i = some q ∧ ls.get? i = some l := by
  intro ss
  induction ss with
  | nil => intro ls q l h; cases ls <;> simp [assignLevels] at h
  | cons s tail ih =>
    intro ls q l h
    cases ls with
    | nil => simp [assignLevels] at h
    | cons lv ltail =>
      unfold assignLevels at h
      by_cases he : q = s
      · rw [if_pos he] at h
        exact ⟨0, by simp [he], by simpa using h⟩
      · rw [if_neg he] at h
        obtain ⟨i, h1, h2⟩ := ih ltail q l h
        exact ⟨i + 1, by simpa using h1, by simpa using h2⟩

theorem rankedSizes_perm (fi gi : List FontInfo) (hp : List.Perm fi gi) :
    rankedSizes fi = rankedSizes gi := by
  unfold rankedSizes
  exact List.eq_of_perm_of_sorted
    (((List.perm_insertionSort geQ _).trans ((hp.map FontInfo.size).dedup)).trans
      (List.perm_insertionSort geQ _).symm)
    (List.sorted_insertionSort geQ _) (List.sorted_insertionSort geQ _)

theorem determine_eq (fi : List FontInfo) :
    determine_heading_levels fi = (selectedOf fi).map (toHeading (s2lOf fi)) := by
  cases fi with
  | nil => rfl
  | cons t rest =>
    unfold determine_heading_levels determine_heading_levels_st selectedOf sortedPhase
    simp only
    rw [emitHeadings_eq_map]
    have hs : List.insertionSort geQ
        (((List.insertionSort sortKeyDesc (t :: rest)).map FontInfo.size).dedup) =
        rankedSizes (t :: rest) :=
      rankedSizes_perm _ _ (List.perm_insertionSort sortKeyDesc (t :: rest))
    rw [hs]
    rfl

theorem selected_pairwise (fi : List FontInfo) :
    List.Pairwise sortKeyAsc (selectedOf fi) :=
  List.Pairwise.sublist (selectTuples_sublist _ _ _)
    (List.sorted_insertionSort sortKeyAsc (List.insertionSort sortKeyDesc fi))

theorem candAppend_foldl (cfg : Config) (pw : ℚ) :
    ∀ (lns : List TextLine) (acc : List (ℚ × PyStr)),
      lns.foldl (candAppend cfg pw) acc = acc ++ lns.filterMap (titleLineCand cfg pw) := by
  intro lns
  induction lns with
  | nil => intro acc; simp
  | cons ln rest ih =>
    intro acc
    rw [List.foldl_cons, ih, List.filterMap_cons]
    unfold candAppend
    cases hf : titleLineCand cfg pw ln with
    | none => simp
    | some c => simp [List.append_assoc]

theorem titleBlockFold_foldl (cfg : Config) (pw : ℚ) :
    ∀ (blocks : List TextBlock) (acc : List (ℚ × PyStr)),
      blocks.foldl (titleBlockFold cfg pw) acc =
        acc ++ ((blocks.map (fun b => b.lines.getD [])).flatten).filterMap
          (titleLineCand cfg pw) := by
  intro blocks
  induction blocks with
  | nil => intro acc; simp
  | cons b rest ih =>
    intro acc
    rw [List.foldl_cons, ih]
    simp only [List.map_cons, List.flatten_cons, List.filterMap_append]
    unfold titleBlockFold
    cases hb : b.lines with
    | none => simp
    | some lns =>
      dsimp only
      rw [candAppend_foldl]
      simp [List.filterMap_append, List.append_assoc]

theorem titleLineScan_foldl (cfg : Config) (pw : ℚ) :
    ∀ (sps : List Span) (b : Bool) (m : ℚ) (t : PyStr),
      sps.foldl (titleSpanStep cfg pw) (b, m, t) =
        (b || !(sps.filter (fun sp => decide (titleSpanQual cfg pw sp))).isEmpty,
         ((sps.filter (fun sp => decide (titleSpanQual cfg pw sp))).map Span.size).foldl max m,
         t ++ ((sps.filter (fun sp => decide (titleSpanQual cfg pw sp))).map
                (fun sp => pyStrip sp.text ++ [' '])).flatten) := by
  intro sps
  induction sps with
  | nil => intro b m t; simp
  | cons sp rest ih =>
    intro b m t
    by_cases hq : titleSpanQual cfg pw sp
    · simp only [List.foldl, titleSpanStep, if_pos hq, List.filter_cons,
        decide_eq_true hq, if_pos rfl]
      rw [ih]
      simp [List.append_assoc]
    · simp only [List.foldl, titleSpanStep, if_neg hq, List.filter_cons]
      rw [decide_eq_false hq]
      simp only [Bool.false_eq_true, if_neg (Bool.false_ne_true)]
      exact ih b m t

theorem titleLineCand_eq_spec (cfg : Config) (pw : ℚ) (hm : 0 ≤ cfg.min_font_size)
    (ln : TextLine) : titleLineCand cfg pw ln = titleLineSpecCand cfg pw ln := by
  unfold titleLineCand titleLineSpecCand titleLineScan
  rw [titleLineScan_foldl]
  cases hq : ln.spans.filter (fun sp => decide (titleSpanQual cfg pw sp)) with
  | nil =>
    rw [if_neg]
    intro hcon
    simp at hcon
  | cons q rest =>
    have hqmem : q ∈ ln.spans.filter (fun sp => decide (titleSpanQual cfg pw sp)) := by
      rw [hq]; exact List.mem_cons_self q rest
    have hsz : 0 ≤ q.size := by
      have := (List.mem_filter.mp hqmem).2
      have hq2 := of_decide_eq_true this
      exact le_trans hm hq2.2
    dsimp only
    have hmax : ((q :: rest).map Span.size).foldl max 0 =
        (rest.map Span.size).foldl max q.size := by
      simp only [List.map_cons, List.foldl_cons]
      congr 1
      exact sup_eq_right.mpr hsz
    by_cases hlen : cfg.min_text_length ≤
        (pyStrip (((q :: rest).map (fun sp => pyStrip sp.text ++ [' '])).flatten)).length
    · rw [if_pos ⟨rfl, by simpa using hlen⟩, if_pos hlen]
      rw [hmax, List.nil_append]
    · rw [if_neg, if_neg hlen]
      intro hcon
      exact hlen (by simpa using hcon.2)

theorem extract_title_eq_spec (cfg : Config) (doc : PdfDoc) (hm : 0 ≤ cfg.min_font_size) :
    extract_title cfg doc = extract_title_spec cfg doc := by
  obtain ⟨pages⟩ := doc
  cases pages with
  | nil => rfl
  | cons fp rest =>
    obtain ⟨pw, blocks⟩ := fp
    cases blocks with
    | error e => rfl
    | ok bs =>
      have hfun : titleLineCand cfg pw = titleLineSpecCand cfg pw :=
        funext (titleLineCand_eq_spec cfg pw hm)
      unfold extract_title extract_title_spec titleLinesSpec
      dsimp only
      rw [titleBlockFold_foldl, List.nil_append, hfun]
      cases hc : List.filterMap (titleLineSpecCand cfg pw)
          ((bs.map (fun b => b.lines.getD [])).flatten) with
      | nil => rfl
      | cons c cs => rfl

theorem rankedSizes_sorted (fi : List FontInfo) :
    List.Pairwise (fun a b : ℚ => b < a) (rankedSizes fi) := by
  have hs : List.Pairwise geQ (rankedSizes fi) :=
    List.sorted_insertionSort geQ ((fi.map FontInfo.size).dedup)
  have hn : (rankedSizes fi).Nodup :=
    (List.perm_insertionSort geQ ((fi.map FontInfo.size).dedup)).symm.nodup
      (List.nodup_dedup _)
  exact (hs.and hn).imp (fun h => lt_of_le_of_ne h.1 (Ne.symm h.2))

theorem rankedSizes_mem (fi : List FontInfo) (s : ℚ) :
    s ∈ rankedSizes fi ↔ s ∈ fi.map FontInfo.size := by
  unfold rankedSizes
  rw [List.mem_insertionSort, List.mem_dedup]

theorem hlevels_indexOf (i : Nat) (l : PyStr) (h : hlevels.get? i = some l) :
    hlevels.indexOf l = i := by
  match i with
  | 0 =>
    simp only [hlevels] at h ⊢
    rw [show l = "H1".toList from by simpa using h.symm]
    decide
  | 1 =>
    simp only [hlevels] at h ⊢
    rw [show l = "H2".toList from by simpa using h.symm]
    decide
  | 2 =>
    simp only [hlevels] at h ⊢
    rw [show l = "H3".toList from by simpa using h.symm]
    decide
  | n + 3 =>
    simp [hlevels] at h

theorem determine_mem_src (fi : List FontInfo) (h : Heading)
    (hmem : h ∈ determine_heading_levels fi) :
    ∃ t ∈ fi, h.text = pyStrip t.text ∧ h.page = t.page ∧
      s2lOf fi t.size = some h.level := by
  rw [determine_eq] at hmem
  obtain ⟨t, ht, hth⟩ := List.mem_map.mp hmem
  have htfi : t ∈ fi := by
    have h1 : t ∈ sortedPhase fi := (selectTuples_sublist _ _ _).subset ht
    unfold sortedPhase at h1
    rw [List.mem_insertionSort, List.mem_insertionSort] at h1
    exact h1
  have hsome := selectTuples_mapped (s2lOf fi) (sortedPhase fi) [] t ht
  obtain ⟨lvl, hlvl⟩ := Option.isSome_iff_exists.mp hsome
  refine ⟨t, htfi, ?_, ?_, ?_⟩
  · rw [← hth]; rfl
  · rw [← hth]; rfl
  · rw [← hth]
    unfold toHeading
    rw [hlvl]
    rfl

/-! ### Claims -/

/-- C1 counterexample: `docBad` opens successfully, but its font-info
collection raises, and `extract_outline` returns without closing the handle —
refuting the claim that the handle is released on every execution path. -/
theorem C1_counterexample :
    (extract_outline defaultConfig "bad.pdf".toList (Except.ok docBad)).closed = false := by
  decide

/-- C1 (amended): on a document that opens successfully, the handle is closed
before returning exactly on the paths where font-info collection succeeds; on
the paths where it raises, the `except` handler returns without closing. -/
theorem C1_close_on_success :
    ∀ (cfg : Config) (path : PyStr) (doc : PdfDoc),
      (∀ fi : List FontInfo, extract_font_info cfg doc = Except.ok fi →
        (extract_outline cfg path (Except.ok doc)).closed = true) ∧
      (∀ e : PyStr, extract_font_info cfg doc = Except.error e →
        (extract_outline cfg path (Except.ok doc)).closed = false) := by
  intro cfg path doc
  constructor
  · intro fi hfi
    unfold extract_outline
    dsimp only
    rw [hfi]
  · intro e hfi
    unfold extract_outline
    dsimp only
    rw [hfi]

/-- C1 witness: on `docGood` the font-info collection succeeds and the handle
is closed. -/
theorem C1_witness :
    extract_font_info defaultConfig docGood =
      Except.ok [⟨"Heading One".toList, 14, false, 1⟩] ∧
    (extract_outline defaultConfig "good.pdf".toList (Except.ok docGood)).closed = true :=
  ⟨by decide,
   (C1_close_on_success defaultConfig "good.pdf".toList docGood).1
     [⟨"Heading One".toList, 14, false, 1⟩] (by decide)⟩

/-- C2: `_is_likely_body_text` returns true exactly when one of the seven
listed conditions holds, and behaves as required on the four unit cases. -/
theorem C2_body_text_filter :
    (∀ t : PyStr, isLikelyBodyText t = bodyTextSpec t) ∧
    isLikelyBodyText "Table 3: Results".toList = true ∧
    isLikelyBodyText "1234".toList = true ∧
    isLikelyBodyText "INTRODUCTION".toList = true ∧
    isLikelyBodyText "A Deep Dive Into Systems Engineering".toList = false :=
  ⟨isLikelyBodyText_eq_spec, by decide, by decide, by decide, by decide⟩

/-- C3: the emitted headings are the images of the selected tuples, which are
pairwise in page-ascending then font-size-descending order; the 2-page
scenario produces exactly the required outline. -/
theorem C3_output_order :
    (∀ fi : List FontInfo,
      determine_heading_levels fi = (selectedOf fi).map (toHeading (s2lOf fi)) ∧
      List.Pairwise sortKeyAsc (selectedOf fi)) ∧
    determine_heading_levels sampleFI3 =
      [⟨"H1".toList, "Chapter 1".toList, 1⟩, ⟨"H2".toList, "Section 1.1".toList, 2⟩,
       ⟨"H2".toList, "Section 1.2".toList, 2⟩] :=
  ⟨fun fi => ⟨determine_eq fi, selected_pairwise fi⟩, by decide⟩

/-- C5: the lowercased trimmed texts of the emitted headings are pairwise
distinct, and a later candidate with the same key — on another page, at
another level — is dropped in favour of the first occurrence. -/
theorem C5_dedup_distinct :
    (∀ fi : List FontInfo,
      List.Pairwise (fun a b : Heading => pyLower (pyStrip a.text) ≠ pyLower (pyStrip b.text))
        (determine_heading_levels fi)) ∧
    determine_heading_levels sampleDup = [⟨"H1".toList, "Overview".toList, 1⟩] := by
  constructor
  · intro fi
    rw [determine_eq, List.pairwise_map]
    refine (selectTuples_key_pairwise (s2lOf fi) (sortedPhase fi) []).imp ?_
    intro a b hab
    unfold toHeading
    simp only
    rw [pyStrip_idem, pyStrip_idem]
    exact hab
  · decide

/-- C6: `extract_outline` removes from the leveled headings exactly those
whose trimmed lowercased text equals the trimmed lowercased title, so no
returned outline entry matches the returned title. -/
theorem C6_title_filter :
    ∀ (cfg : Config) (path : PyStr) (doc : PdfDoc) (fi : List FontInfo),
      extract_font_info cfg doc = Except.ok fi →
      (extract_outline cfg path (Except.ok doc)).result.outline =
        (determine_heading_levels fi).filter
          (fun h => decide (pyLower (pyStrip h.text) ≠
            pyLower (pyStrip (extract_title cfg doc)))) ∧
      ∀ h ∈ (extract_outline cfg path (Except.ok doc)).result.outline,
        pyLower (pyStrip h.text) ≠
          pyLower (pyStrip (extract_outline cfg path (Except.ok doc)).result.title) := by
  intro cfg path doc fi hfi
  unfold extract_outline
  dsimp only
  rw [hfi]
  dsimp only
  constructor
  · rfl
  · intro h hmem
    rw [List.mem_filter] at hmem
    have hne := of_decide_eq_true hmem.2
    rw [pyStrip_idem]
    exact hne

/-- C6 witness: the filter equation at a concrete document. -/
theorem C6_witness :
    extract_font_info defaultConfig docGood =
      Except.ok [⟨"Heading One".toList, 14, false, 1⟩] ∧
    (extract_outline defaultConfig "doc.pdf".toList (Except.ok docGood)).result.outline =
      (determine_heading_levels [⟨"Heading One".toList, 14, false, 1⟩]).filter
        (fun h => decide (pyLower (pyStrip h.text) ≠
          pyLower (pyStrip (extract_title defaultConfig docGood)))) :=
  ⟨by decide,
   (C6_title_filter defaultConfig "doc.pdf".toList docGood
     [⟨"Heading One".toList, 14, false, 1⟩] (by decide)).1⟩

/-- C8: a failure at open, or while reading pages, yields exactly
`{title: "", outline: []}` together with a logged message that contains the
file path and the underlying error; no exception escapes (the function is
total). -/
theorem C8_fail_soft :
    ∀ (cfg : Config) (path e : PyStr),
      ((extract_outline cfg path (Except.error e)).result = ⟨[], []⟩ ∧
       (extract_outline cfg path (Except.error e)).log = some (errMsg path e) ∧
       List.IsInfix path (errMsg path e) ∧ List.IsInfix e (errMsg path e)) ∧
      ∀ doc : PdfDoc, extract_font_info cfg doc = Except.error e →
        (extract_outline cfg path (Except.ok doc)).result = ⟨[], []⟩ ∧
        (extract_outline cfg path (Except.ok doc)).log = some (errMsg path e) := by
  intro cfg path e
  constructor
  · refine ⟨rfl, rfl, ⟨"Error processing ".toList, ": ".toList ++ e, ?_⟩,
      ⟨"Error processing ".toList ++ path ++ ": ".toList, [], ?_⟩⟩
    · unfold errMsg
      simp [List.append_assoc]
    · unfold errMsg
      simp [List.append_assoc]
  · intro doc hfi
    unfold extract_outline
    dsimp only
    rw [hfi]
    exact ⟨rfl, rfl⟩

/-- C8 witness: the fail-soft result at a concrete raising document. -/
theorem C8_witness :
    extract_font_info defaultConfig docBad = Except.error "boom".toList ∧
    (extract_outline defaultConfig "bad.pdf".toList (Except.ok docBad)).result = ⟨[], []⟩ ∧
    (extract_outline defaultConfig "bad.pdf".toList (Except.ok docBad)).log =
      some (errMsg "bad.pdf".toList "boom".toList) :=
  ⟨by decide,
   ((C8_fail_soft defaultConfig "bad.pdf".toList "boom".toList).2 docBad (by decide)).1,
   ((C8_fail_soft defaultConfig "bad.pdf".toList "boom".toList).2 docBad (by decide)).2⟩

/-- C9: on nonempty input the caller's list is left fully re-sorted — the
final state is the result of the two in-place sorts, a permutation of the
input ordered page-ascending then font-size-descending. -/
theorem C9_sort_in_place :
    ∀ fi : List FontInfo, fi ≠ [] →
      (determine_heading_levels_st fi).2 =
        List.insertionSort sortKeyAsc (List.insertionSort sortKeyDesc fi) ∧
      List.Perm (determine_heading_levels_st fi).2 fi ∧
      List.Pairwise sortKeyAsc (determine_heading_levels_st fi).2 := by
  intro fi hne
  cases fi with
  | nil => exact absurd rfl hne
  | cons t rest =>
    refine ⟨rfl, ?_, ?_⟩
    · exact (List.perm_insertionSort sortKeyAsc _).trans
        (List.perm_insertionSort sortKeyDesc _)
    · exact List.sorted_insertionSort sortKeyAsc _

/-- C9 witness: the final state of the caller's list at a concrete input. -/
theorem C9_witness :
    sampleTie ≠ [] ∧
    (determine_heading_levels_st sampleTie).2 =
      List.insertionSort sortKeyAsc (List.insertionSort sortKeyDesc sampleTie) :=
  ⟨by decide, (C9_sort_in_place sampleTie (by decide)).1⟩

/-- C10: candidates that tie on (page, font size) are never reordered by the
two sorts, the emitted tuples are a sublist of the sorted phase, and on a
concrete tie the output keeps the input order. -/
theorem C10_stable_ties :
    (∀ (fi : List FontInfo) (a b : FontInfo),
      a.page = b.page → a.size = b.size → List.Sublist [a, b] fi →
      List.Sublist [a, b] (sortedPhase fi)) ∧
    (∀ fi : List FontInfo, List.Sublist (selectedOf fi) (sortedPhase fi)) ∧
    determine_heading_levels sampleTie =
      [⟨"H1".toList, "Alpha".toList, 1⟩, ⟨"H1".toList, "Beta".toList, 1⟩] := by
  refine ⟨?_, ?_, by decide⟩
  · intro fi a b hp hs hsub
    unfold sortedPhase
    have h1 : List.Sublist [a, b] (List.insertionSort sortKeyDesc fi) :=
      List.pair_sublist_insertionSort (Or.inr ⟨hp.symm, le_of_eq hs.symm⟩) hsub
    exact List.pair_sublist_insertionSort (Or.inr ⟨hp, le_of_eq hs.symm⟩) h1
  · intro fi
    exact selectTuples_sublist _ _ _

/-- C10 witness: the tie pair of `sampleTie` survives the sorting phase in
input order. -/
theorem C10_witness :
    List.Sublist [(⟨"Alpha".toList, 14, true, 1⟩ : FontInfo), ⟨"Beta".toList, 14, false, 1⟩]
      (sortedPhase sampleTie) :=
  C10_stable_ties.1 sampleTie ⟨"Alpha".toList, 14, true, 1⟩ ⟨"Beta".toList, 14, false, 1⟩
    (by decide) (by decide) (by decide)

/-- C7: `extract_title` computes exactly the specified collect–sort–join title
(for any nonnegative minimum font size, as in the default configuration), the
centered size-24 scenario yields "Annual Report 2024", and documents without
pages or with a raising first page yield the empty string, with no exception
propagated (the function is total). -/
theorem C7_title_detector :
    (∀ (cfg : Config) (doc : PdfDoc), 0 ≤ cfg.min_font_size →
        extract_title cfg doc = extract_title_spec cfg doc) ∧
    extract_title defaultConfig docAnnual = "Annual Report 2024".toList ∧
    (∀ cfg : Config, extract_title cfg ⟨[]⟩ = []) ∧
    (∀ (cfg : Config) (w : ℚ) (e : PyStr) (rest : List PdfPage),
        extract_title cfg ⟨⟨w, Except.error e⟩ :: rest⟩ = []) := by
  refine ⟨extract_title_eq_spec, ?_, fun cfg => rfl, fun cfg w e rest => rfl⟩
  have hc : titleSpanQual defaultConfig 100 ⟨"Annual Report 2024".toList, 24, 0, 30, 70⟩ := by
    unfold titleSpanQual defaultConfig
    constructor <;> norm_num
  unfold extract_title docAnnual
  simp only [List.foldl, titleBlockFold, candAppend, titleLineCand, titleLineScan,
    titleSpanStep, if_pos hc]
  decide

/-- C7 witness: the refinement equation instantiated at the default
configuration and the scenario document. -/
theorem C7_witness :
    0 ≤ defaultConfig.min_font_size ∧
    extract_title defaultConfig docAnnual = extract_title_spec defaultConfig docAnnual :=
  ⟨by decide, C7_title_detector.1 defaultConfig docAnnual (by decide)⟩

theorem take3_cons1 (a : ℚ) (l : List ℚ) : (a :: l).take 3 = a :: l.take 2 := rfl

theorem take3_cons2 (a b : ℚ) (l : List ℚ) : (a :: b :: l).take 3 = a :: b :: l.take 1 := rfl

theorem take3_cons3 (a b c : ℚ) (l : List ℚ) : (a :: b :: c :: l).take 3 = [a, b, c] := rfl

/-- C4: the size-to-level mapping is a document-global descending rank over
the distinct input sizes — largest to H1, second to H2, third to H3, lower
ranks unmapped (their tuples dropped); larger mapped sizes get strictly more
senior levels, at most the first `#distinct sizes` levels are populated, and
the empty input yields the empty output. -/
theorem C4_level_map :
    determine_heading_levels [] = [] ∧
    ∀ fi : List FontInfo,
      List.Pairwise (fun a b : ℚ => b < a) (rankedSizes fi) ∧
      (∀ s : ℚ, s ∈ rankedSizes fi ↔ s ∈ fi.map FontInfo.size) ∧
      (∀ a rest, rankedSizes fi = a :: rest → s2lOf fi a = some "H1".toList) ∧
      (∀ a b rest, rankedSizes fi = a :: b :: rest → s2lOf fi b = some "H2".toList) ∧
      (∀ a b c rest, rankedSizes fi = a :: b :: c :: rest → s2lOf fi c = some "H3".toList) ∧
      (∀ s : ℚ, s ∉ (rankedSizes fi).take 3 → s2lOf fi s = none) ∧
      (∀ s1 s2 l1 l2, s2lOf fi s1 = some l1 → s2lOf fi s2 = some l2 → s2 < s1 →
          hlevels.indexOf l1 < hlevels.indexOf l2) ∧
      (∀ h ∈ determine_heading_levels fi, ∃ t ∈ fi, h.text = pyStrip t.text ∧
          h.page = t.page ∧ s2lOf fi t.size = some h.level) ∧
      (∀ h ∈ determine_heading_levels fi, h.level ∈ hlevels ∧
          hlevels.indexOf h.level < (rankedSizes fi).length) := by
  refine ⟨rfl, fun fi => ⟨rankedSizes_sorted fi, rankedSizes_mem fi, ?_, ?_, ?_, ?_, ?_,
    fun h hmem => determine_mem_src fi h hmem, ?_⟩⟩
  · intro a rest hr
    unfold s2lOf
    rw [hr, take3_cons1]
    simp [hlevels, assignLevels]
  · intro a b rest hr
    have hp := rankedSizes_sorted fi
    rw [hr] at hp
    have hba : b < a := (List.pairwise_cons.mp hp).1 b (List.mem_cons_self b rest)
    unfold s2lOf
    rw [hr, take3_cons2]
    simp only [hlevels, assignLevels]
    rw [if_neg (ne_of_lt hba)]
    simp
  · intro a b c rest hr
    have hp := rankedSizes_sorted fi
    rw [hr] at hp
    obtain ⟨ha, hp2⟩ := List.pairwise_cons.mp hp
    obtain ⟨hb, _⟩ := List.pairwise_cons.mp hp2
    have hca : c < a := ha c (List.mem_cons_of_mem b (List.mem_cons_self c rest))
    have hcb : c < b := hb c (List.mem_cons_self c rest)
    unfold s2lOf
    rw [hr, take3_cons3]
    simp only [hlevels, assignLevels]
    rw [if_neg (ne_of_lt hca), if_neg (ne_of_lt hcb)]
    simp
  · intro s hs
    unfold s2lOf
    exact assignLevels_not_mem _ _ _ hs
  · intro s1 s2 l1 l2 h1 h2 hlt
    unfold s2lOf at h1 h2
    obtain ⟨i1, hs1, hl1⟩ := assignLevels_eq_some _ _ _ _ h1
    obtain ⟨i2, hs2, hl2⟩ := assignLevels_eq_some _ _ _ _ h2
    have hsorted : List.Pairwise (fun a b : ℚ => b < a) ((rankedSizes fi).take 3) :=
      List.Pairwise.sublist (List.take_sublist 3 _) (rankedSizes_sorted fi)
    rw [List.get?_eq_some] at hs1 hs2
    obtain ⟨hi1, hg1⟩ := hs1
    obtain ⟨hi2, hg2⟩ := hs2
    have hij : i1 < i2 := by
      rcases Nat.lt_trichotomy i1 i2 with h | h | h
      · exact h
      · exfalso
        subst h
        have hss : s1 = s2 := by rw [← hg1, ← hg2]
        rw [hss] at hlt
        exact lt_irrefl s2 hlt
      · exfalso
        have hrel := List.pairwise_iff_get.mp hsorted ⟨i2, hi2⟩ ⟨i1, hi1⟩ h
        rw [hg1, hg2] at hrel
        exact absurd hlt (asymm hrel)
    rw [hlevels_indexOf i1 l1 hl1, hlevels_indexOf i2 l2 hl2]
    exact hij
  · intro h hmem
    obtain ⟨t, htfi, _, _, hlvl⟩ := determine_mem_src fi h hmem
    unfold s2lOf at hlvl
    obtain ⟨i, hsi, hli⟩ := assignLevels_eq_some _ _ _ _ hlvl
    refine ⟨List.get?_mem hli, ?_⟩
    rw [hlevels_indexOf i h.level hli]
    obtain ⟨hib, _⟩ := List.get?_eq_some.mp hsi
    calc i < ((rankedSizes fi).take 3).length := hib
      _ ≤ (rankedSizes fi).length := by
          rw [List.length_take]
          exact Nat.min_le_right _ _

/-- C4 witness: the rank map of a two-size input. -/
theorem C4_witness :
    rankedSizes sampleDup = [18, 14] ∧
    s2lOf sampleDup 18 = some "H1".toList ∧
    s2lOf sampleDup 14 = some "H2".toList :=
  ⟨by decide,
   (C4_level_map.2 sampleDup).2.2.1 18 [14] (by decide),
   (C4_level_map.2 sampleDup).2.2.2.1 18 14 [] (by decide)⟩
